import Mathlib

/-!
Verification of the commit-review monitor (`main.py`) against its design
specification.  The development shallowly embeds the change-detection loop
(`check_commits_periodically`), the diff/prompt extraction
(`update_commit_review`), repository initialization
(`initialize_repo` / `select_repository`) and the review worker
(`_ai_worker` / `ai_response`) as pure Lean functions, and proves the
specified properties about them.

Modelling conventions:
* Python strings are Lean `String`s; where line structure matters
  (pseudo-diff synthesis) file contents are `List Char`.
* Each step of the detector loop is a pure function from the monitor state
  and a "tick environment" (the observations the tick would make: whether a
  remote exists, whether the fetch raises `GitCommandError`, and the result
  of reading `HEAD`) to the successor state plus the ordered list of
  observable actions the loop body performs, in source order.
* Fallible operations are `Except String` values carrying the exception
  message.
-/

/-! ## Poll-interval computation

`check_commits_periodically` computes the sleep interval as

```
try:
    interval = int(self.check_interval_var.get())
    if interval < 5:
        interval = 5
except:
    interval = 30
```

`int_py` models Python's `int(str)` conversion: strip surrounding
whitespace, an optional sign, then decimal digits, where a single
underscore may separate two digits.  A failed conversion (Python
`ValueError`) is `none`.
-/

/-- Characters stripped by Python `int()` before parsing. -/
def isPySpace (c : Char) : Bool :=
  c = ' ' || c = '\t' || c = '\n' || c = '\r' || c = '\x0b' || c = '\x0c'

/-- Accumulate decimal digits, allowing a single underscore between two
digits (Python 3 numeric-literal grouping accepted by `int()`). -/
def pyDigitsGo (acc : Nat) : List Char → Option Nat
  | [] => some acc
  | c :: rest =>
    if c.isDigit then pyDigitsGo (acc * 10 + (c.toNat - 48)) rest
    else if c = '_' then
      match rest with
      | [] => none
      | d :: rest2 =>
        if d.isDigit then pyDigitsGo (acc * 10 + (d.toNat - 48)) rest2 else none
    else none

/-- Parse a nonempty digit group (the part of `int()` after the sign). -/
def pyDigits : List Char → Option Nat
  | [] => none
  | c :: rest => if c.isDigit then pyDigitsGo (c.toNat - 48) rest else none

/-- Model of Python `int(s)`: strip whitespace, optional sign, digits.
`none` models the `ValueError` caught by the bare `except:`. -/
def int_py (s : String) : Option Int :=
  let l1 := s.toList.dropWhile isPySpace
  let l2 := ((l1.reverse).dropWhile isPySpace).reverse
  match l2 with
  | '+' :: rest => (pyDigits rest).map (fun n => (n : Int))
  | '-' :: rest => (pyDigits rest).map (fun n => -(n : Int))
  | rest => (pyDigits rest).map (fun n => (n : Int))

/-- The effective sleep interval computed at the top of each tick of
`check_commits_periodically` (lines 516-522 of `main.py`): the parsed
value clamped below by 5, or 30 when parsing raises. -/
def effectiveInterval (s : String) : Int :=
  match int_py s with
  | some n => if n < 5 then 5 else n
  | none => 30

/-! ## Detector state and tick model

`MonitorState` is the mutable state of `CommitReviewApp` that the polling
loop reads and writes: `running`, the `auto_check_var` switch, the
`last_commit_hash` (`none` models Python `None`), and the interval combo
box string.

`TickEnv` is what one iteration of the loop observes from the outside
world: whether `self.repo.remotes` has an `origin` attribute, whether
`origin.fetch()` raises `GitCommandError`, and the result of
`self.repo.head.commit.hexsha` (`Except.error` models any exception
raised while reading HEAD, e.g. the repository path having been removed;
the fetch step precedes the HEAD read in the loop body).

`Action` records, in source order, the externally observable steps the
loop body performs: status-label updates (message, severity), the
`print` warning on fetch failure, the assignment to `last_commit_hash`,
the `self.after(0, self.update_commit_review)` handoff of the change for
review, the `self.after(0, self.update_commit_info)` call, the last-check
label update, the `time.sleep(interval)` call, and (from
`update_commit_review` / `initialize_repo`) the `self.ai_queue.put`
submission of a prompt to the review worker.
-/

structure MonitorState where
  running : Bool
  autoCheck : Bool
  lastSeen : Option String
  intervalStr : String
deriving DecidableEq

instance {ε α : Type} [DecidableEq ε] [DecidableEq α] : DecidableEq (Except ε α) :=
  fun x y =>
    match x, y with
    | Except.error a, Except.error b =>
      if h : a = b then Decidable.isTrue (congrArg Except.error h)
      else Decidable.isFalse (fun he => h (Except.error.inj he))
    | Except.ok a, Except.ok b =>
      if h : a = b then Decidable.isTrue (congrArg Except.ok h)
      else Decidable.isFalse (fun he => h (Except.ok.inj he))
    | Except.error _, Except.ok _ => Decidable.isFalse (fun he => Except.noConfusion he)
    | Except.ok _, Except.error _ => Decidable.isFalse (fun he => Except.noConfusion he)

structure TickEnv where
  hasOrigin : Bool
  fetchFails : Bool
  headResult : Except String String
deriving DecidableEq

inductive AppAction where
  | statusUpdate (message : String) (severity : String)
  | logWarning (message : String)
  | setLastSeen (hash : String)
  | dispatchReview
  | updateCommitInfo
  | setLastCheck
  | sleep (seconds : Int)
  | submitReview (prompt : String)
deriving DecidableEq

/-- Actions produced by the fetch step (lines 524-530): when an `origin`
remote exists and `origin.fetch()` raises `GitCommandError`, the loop
prints a warning and continues; otherwise nothing observable happens. -/
def fetchActions (env : TickEnv) : List AppAction :=
  if env.hasOrigin then
    if env.fetchFails then [AppAction.logWarning "Warning: Could not fetch from remote"]
    else []
  else []

/-- One iteration of the body of `check_commits_periodically`
(lines 514-553): compute the interval, attempt the fetch, read HEAD.
If reading HEAD raises, the `except` clause posts an error status and the
iteration falls through to the sleep.  Otherwise, when the hash differs
from `last_commit_hash` the loop posts a success status, assigns
`last_commit_hash`, schedules `update_commit_review` and
`update_commit_info`, updates the last-check label and sleeps; when the
hash is unchanged only the last-check update and the sleep happen. -/
def tick (st : MonitorState) (env : TickEnv) : MonitorState × List AppAction :=
  let interval := effectiveInterval st.intervalStr
  match env.headResult with
  | Except.error e =>
    (st, fetchActions env ++
      [AppAction.statusUpdate ("Error: " ++ e) "error", AppAction.sleep interval])
  | Except.ok h =>
    if some h ≠ st.lastSeen then
      ({st with lastSeen := some h},
        fetchActions env ++
          [AppAction.statusUpdate "New commit found! Updating review..." "success",
           AppAction.setLastSeen h, AppAction.dispatchReview, AppAction.updateCommitInfo,
           AppAction.setLastCheck, AppAction.sleep interval])
    else
      (st, fetchActions env ++ [AppAction.setLastCheck, AppAction.sleep interval])

/-- The `while self.running and self.auto_check_var.get():` loop, driven by
a list of tick environments (one per iteration the world would offer).
Returns the final state and the per-tick action traces, in order. -/
def pollLoop (st : MonitorState) : List TickEnv → MonitorState × List (List AppAction)
  | [] => (st, [])
  | env :: rest =>
    if st.running && st.autoCheck then
      let r1 := tick st env
      let r2 := pollLoop r1.1 rest
      (r2.1, r1.2 :: r2.2)
    else (st, [])

/-! ## Helpers over action traces -/

/-- Number of actions in a trace satisfying a predicate. -/
def countWhere (p : AppAction → Bool) : List AppAction → Nat
  | [] => 0
  | a :: rest => (if p a then 1 else 0) + countWhere p rest

/-- Index of the first action satisfying a predicate. -/
def firstIdxWhere (p : AppAction → Bool) : List AppAction → Option Nat
  | [] => none
  | a :: rest => if p a then some 0 else (firstIdxWhere p rest).map (· + 1)

/-- `occursBefore p q l` holds when both kinds of action occur in `l` and
the first `p`-action strictly precedes the first `q`-action. -/
def occursBefore (p q : AppAction → Bool) (l : List AppAction) : Bool :=
  match firstIdxWhere p l, firstIdxWhere q l with
  | some i, some j => decide (i < j)
  | _, _ => false

def isSetLastSeen : AppAction → Bool
  | AppAction.setLastSeen _ => true
  | _ => false

def isDispatchReview : AppAction → Bool
  | AppAction.dispatchReview => true
  | _ => false

def isSubmitReview : AppAction → Bool
  | AppAction.submitReview _ => true
  | _ => false


/-! ## Review worker

`ai_response(prompt)` (lines 38-84) wraps the whole `ollama.chat` call in
`try/except Exception` and on any exception returns an error text instead
of raising.  The external service's behaviour is an input: a function
from the prompt to `Except.ok responseText` or `Except.error reason`
(the string of the raised exception).

`_ai_worker` (lines 325-347) loops: take `(prompt, callback)` from the
FIFO `queue.Queue`, compute `ai_response(prompt)`, and schedule the
callback with the result via `self.after(0, ...)`.  With the single
worker thread processing items one at a time and `after(0, ...)`
callbacks running on the main loop in scheduling order, the run over a
queue is modelled as the ordered list of callback deliveries, one per
queued item.
-/

/-- A callback delivery scheduled by the worker: the submitted prompt
(identifying the payload/its registered callback) and the result text
passed to the callback. -/
inductive WorkerEvent where
  | delivered (prompt : String) (result : String)
deriving DecidableEq

/-- The prompt a delivery belongs to. -/
def eventPrompt : WorkerEvent → String
  | WorkerEvent.delivered p _ => p

/-- The error text `ai_response` returns when the service call raises. -/
def aiFailureText (reason : String) : String :=
  "Error generating AI response: " ++ reason ++
    "\n\nPlease check your Ollama setup and ensure the model is available."

/-- Model of `ai_response` (lines 38-84): the service result on success,
the apologetic error text on any exception — never a raised exception. -/
def ai_response (prompt : String) (svc : String → Except String String) : String :=
  match svc prompt with
  | Except.ok content => content
  | Except.error e => aiFailureText e

/-- Model of `_ai_worker` (lines 325-347) consuming a queue of submitted
prompts in FIFO order: each item produces exactly one scheduled callback
delivery carrying `ai_response` of that item, and the loop continues with
the rest of the queue. -/
def aiWorkerRun (svc : String → Except String String) : List String → List WorkerEvent
  | [] => []
  | p :: rest => WorkerEvent.delivered p (ai_response p svc) :: aiWorkerRun svc rest


/-! ## Diff extraction and prompt construction

`update_commit_review` (lines 555-636) reads the current HEAD commit and
builds the review payload.  `RepoModel` is the read-only view of the
repository it consumes: the HEAD commit's metadata, the number of commits
reachable from HEAD (`len(list(self.repo.iter_commits()))`), the blobs of
the HEAD tree in `tree.traverse()` order (file contents already decoded
with `errors='replace'`, as `List Char` so line structure can be
reasoned about), and the `current_commit.diff("HEAD~1")` items (for each
item, `a_path` / `b_path` — `none` models Python `None` — and the decoded
patch text from `create_patch=True`).

The commit date field carries the already-formatted
`datetime.fromtimestamp(committed_date).strftime("%Y-%m-%d %H:%M")`
string.
-/

structure CommitData where
  hexsha : String
  authorName : String
  dateStr : String
  message : String
deriving DecidableEq

structure Blob where
  path : String
  content : List Char
deriving DecidableEq

structure DiffItem where
  aPath : Option String
  bPath : Option String
  patch : String
deriving DecidableEq

structure RepoModel where
  commit : CommitData
  commitCount : Nat
  tree : List Blob
  diffPairs : List DiffItem
deriving DecidableEq

/-- Model of Python `content.replace` sending each newline to a newline
followed by '+' (line 575): insert a '+' after every newline. -/
def replaceNLplus : List Char → List Char
  | [] => []
  | c :: rest =>
    if c = '\n' then '\n' :: '+' :: replaceNLplus rest
    else c :: replaceNLplus rest

/-- The root-commit pseudo-diff body for one file (line 575): a leading
'+', then the content with a '+' inserted after every newline. -/
def addedFileBody (content : List Char) : List Char :=
  '+' :: replaceNLplus content

/-- The root-commit pseudo-diff header for one file (line 574):
"+++ ", the blob path, and a newline. -/
def fileHeader (path : String) : List Char :=
  ("+++ " ++ path ++ "\n").data

/-- The `code_diff` accumulation of `update_commit_review`
(lines 564-575): patches of `diff("HEAD~1", create_patch=True)` when a
previous commit exists, else the synthesized wholly-added pseudo-diff
over every blob of the HEAD tree. -/
def extractDiffChars (r : RepoModel) : List Char :=
  if r.commitCount > 1 then
    r.diffPairs.foldl (fun acc d => acc ++ d.patch.data) []
  else
    r.tree.foldl (fun acc b => acc ++ fileHeader b.path ++ addedFileBody b.content) []

/-- The `files_changed` accumulation (lines 579-592): for each diff item
`a_path` if present else `b_path`; for a root commit, every blob path in
tree-traversal order. -/
def extractFiles (r : RepoModel) : List String :=
  if r.commitCount > 1 then
    r.diffPairs.foldl
      (fun acc d =>
        match d.aPath with
        | some p => acc ++ [p]
        | none =>
          match d.bPath with
          | some p => acc ++ [p]
          | none => acc)
      []
  else
    r.tree.foldl (fun acc b => acc ++ [b.path]) []

/-- The extracted review payload.  The code carries no explicit flag; the
`isInitialCommit` field records which branch of the
`len(list(self.repo.iter_commits())) > 1` test ran (the spec's
`ReviewPayload.isInitialCommit`). -/
structure ExtractedPayload where
  isInitialCommit : Bool
  diffChars : List Char
  changedFiles : List String
deriving DecidableEq

/-- Payload extraction as performed by `update_commit_review`. -/
def extractPayload (r : RepoModel) : ExtractedPayload :=
  if r.commitCount > 1 then
    { isInitialCommit := false, diffChars := extractDiffChars r, changedFiles := extractFiles r }
  else
    { isInitialCommit := true, diffChars := extractDiffChars r, changedFiles := extractFiles r }

/-- Lines of decoded text: split at every newline character (the
separators themselves removed), keeping a final empty line when the text
ends with a newline. -/
def splitNL : List Char → List (List Char)
  | [] => [[]]
  | c :: rest =>
    if c = '\n' then [] :: splitNL rest
    else
      match splitNL rest with
      | [] => [[c]]
      | s :: ss => (c :: s) :: ss

/-- The `text_prompt` f-string of `update_commit_review`
(lines 597-605), segment by segment. -/
def textPrompt (c : CommitData) (files : List String) (diff : String) : String :=
  "Please review the following Git commit:\n\n" ++
  "COMMIT HASH: " ++ c.hexsha ++ "\n" ++
  "AUTHOR: " ++ c.authorName ++ "\n" ++
  "DATE: " ++ c.dateStr ++ "\n" ++
  "COMMIT MESSAGE:\n" ++ c.message ++ "\n\n" ++
  "FILES CHANGED: " ++ String.intercalate ", " files ++ "\n\n" ++
  "DIFF:\n" ++ diff

/-- The prompt template exactly as the specification words it
("COMMIT HASH: <hash>\x5cnAUTHOR: ..." with nothing more), for comparison
with `textPrompt`. -/
def promptSpecFormat (c : CommitData) (files : List String) (diff : String) : String :=
  "COMMIT HASH: " ++ c.hexsha ++ "\n" ++
  "AUTHOR: " ++ c.authorName ++ "\n" ++
  "DATE: " ++ c.dateStr ++ "\n" ++
  "COMMIT MESSAGE:\n" ++ c.message ++ "\n\n" ++
  "FILES CHANGED: " ++ String.intercalate ", " files ++ "\n\n" ++
  "DIFF:\n" ++ diff

/-- The full prompt `update_commit_review` builds from the repository
view. -/
def promptOf (r : RepoModel) : String :=
  textPrompt r.commit (extractPayload r).changedFiles (String.mk (extractPayload r).diffChars)

/-- The tail of `update_commit_review` (lines 607-628): post the
"Generating review..." status and put the prompt on `self.ai_queue`. -/
def reviewSubmitActions (r : RepoModel) : List AppAction :=
  [AppAction.statusUpdate "Generating review with AI..." "info",
   AppAction.submitReview (promptOf r)]

/-! ## Repository initialization and selection

`initialize_repo(path)` (lines 431-455) re-creates the `Repo`, sets
`last_commit_hash` to the new repository's current HEAD, posts a success
status, refreshes the commit-info display, starts monitoring when
auto-check is on (and not already running), and unconditionally runs an
initial `update_commit_review()` — which enqueues a review of the new
HEAD.  `headResult` is the outcome of reading the new repository's HEAD
(`self.repo.head.commit.hexsha`, line 436); `r` is the repository view
the initial review reads.

`select_repository()` (lines 415-429) posts a "Selecting repository..."
status, opens a directory dialog (`dialogChose` is whether a path was
returned), validates it (`invalidErr` carries the exception text when
`Repo(path)` raises, `none` when the path is a valid repository), and on
success hands the path to `initialize_repo`.
-/

def initialize_repo (st : MonitorState) (headResult : Except String String)
    (r : RepoModel) : MonitorState × List AppAction :=
  match headResult with
  | Except.error e =>
    (st, [AppAction.statusUpdate ("Error initializing repository: " ++ e) "error"])
  | Except.ok h =>
    if st.autoCheck && !st.running then
      ({ st with lastSeen := some h, running := true },
        [AppAction.statusUpdate "Repository initialized" "success",
         AppAction.updateCommitInfo,
         AppAction.statusUpdate "Monitoring for changes" "info"] ++ reviewSubmitActions r)
    else
      ({ st with lastSeen := some h },
        [AppAction.statusUpdate "Repository initialized" "success",
         AppAction.updateCommitInfo] ++ reviewSubmitActions r)

def select_repository (st : MonitorState) (dialogChose : Bool) (invalidErr : Option String)
    (headResult : Except String String) (r : RepoModel) : MonitorState × List AppAction :=
  if dialogChose then
    match invalidErr with
    | none =>
      let res := initialize_repo st headResult r
      (res.1, AppAction.statusUpdate "Selecting repository..." "info" :: res.2)
    | some e =>
      (st, [AppAction.statusUpdate "Selecting repository..." "info",
            AppAction.statusUpdate ("Not a valid Git repository: " ++ e) "error"])
  else
    (st, [AppAction.statusUpdate "Selecting repository..." "info",
          AppAction.statusUpdate "Repository selection cancelled" "warning"])


/-- The fetch step contributes at most one warning action. -/
theorem fetchActions_eq (env : TickEnv) :
    fetchActions env = [] ∨
    fetchActions env = [AppAction.logWarning "Warning: Could not fetch from remote"] := by
  unfold fetchActions
  by_cases h1 : env.hasOrigin <;> by_cases h2 : env.fetchFails <;> simp [h1, h2]

/-- C4: on every tick, the effective sleep interval is at least 5 seconds
regardless of the configured string; parseable values are clamped below
by 5 (`max 5 n`), and the tick's `time.sleep` call uses exactly this
effective interval. -/
theorem tick_interval_floor (st : MonitorState) (env : TickEnv) :
    5 ≤ effectiveInterval st.intervalStr ∧
    AppAction.sleep (effectiveInterval st.intervalStr) ∈ (tick st env).2 ∧
    (match int_py st.intervalStr with
     | some n => effectiveInterval st.intervalStr = max 5 n
     | none => effectiveInterval st.intervalStr = 30) := by
  refine ⟨?_, ?_, ?_⟩
  · unfold effectiveInterval
    cases h : int_py st.intervalStr with
    | some n => simp only []; split <;> omega
    | none => norm_num
  · unfold tick
    cases h : env.headResult with
    | error e => simp
    | ok hsh =>
      by_cases hd : some hsh ≠ st.lastSeen <;> simp [hd]
  · cases h : int_py st.intervalStr with
    | some n => simp only [effectiveInterval, h]; split <;> omega
    | none => simp [effectiveInterval, h]

/-- C10: an unparseable interval string silently falls back to an
effective interval of 30 seconds — the tick behaves exactly as if "30"
had been configured — while a parseable value `n` is used as-is unless it
is below 5, in which case it is clamped to 5 (never replaced by 30). -/
theorem interval_fallback (s t : String) (st : MonitorState) (env : TickEnv) (n : Int)
    (hnone : int_py s = none) (hsome : int_py t = some n) :
    effectiveInterval s = 30 ∧
    (tick { st with intervalStr := s } env).2 = (tick { st with intervalStr := "30" } env).2 ∧
    effectiveInterval t = (if n < 5 then 5 else n) := by
  have h30 : effectiveInterval "30" = 30 := by decide
  have hs : effectiveInterval s = 30 := by simp [effectiveInterval, hnone]
  refine ⟨hs, ?_, by simp [effectiveInterval, hsome]⟩
  unfold tick
  cases h : env.headResult with
  | error e => simp [fetchActions, hs, h30]
  | ok hsh => by_cases hd : some hsh ≠ st.lastSeen <;> simp [fetchActions, hs, h30, hd]

/-- Witness for `interval_fallback` at the concrete strings "abc" (raises
`ValueError`) and "3" (parses below the floor). -/
theorem interval_fallback_witness :
    int_py "abc" = none ∧ int_py "3" = some 3 ∧
    (effectiveInterval "abc" = 30 ∧
      (tick { running := true, autoCheck := true, lastSeen := some "a", intervalStr := "abc" }
          { hasOrigin := false, fetchFails := false, headResult := Except.ok "a" }).2 =
        (tick { running := true, autoCheck := true, lastSeen := some "a", intervalStr := "30" }
          { hasOrigin := false, fetchFails := false, headResult := Except.ok "a" }).2 ∧
      effectiveInterval "3" = (if (3 : Int) < 5 then 5 else 3)) := by
  refine ⟨by decide, by decide, ?_⟩
  exact interval_fallback "abc" "3"
    { running := true, autoCheck := true, lastSeen := some "a", intervalStr := "abc" }
    { hasOrigin := false, fetchFails := false, headResult := Except.ok "a" } 3
    (by decide) (by decide)

/-! ## Change detection: dispatch, hash update order, error policy -/

/-- C1 (amended): on a tick that observes a HEAD hash different from
`last_commit_hash`, exactly one change dispatch is handed off for review
and `last_commit_hash` becomes the new hash in the same tick — but the
assignment (line 537) happens immediately BEFORE the
`after(0, update_commit_review)` handoff (line 540), not after it.  The
update does not depend on the review's outcome (the tick takes no review
result as input), and a later tick observing the same hash dispatches
nothing, so the same commit is never re-detected. -/
theorem tick_change_dispatch (st : MonitorState) (env env2 : TickEnv) (h : String)
    (hh : env.headResult = Except.ok h) (hd : some h ≠ st.lastSeen)
    (hh2 : env2.headResult = Except.ok h) :
    countWhere isDispatchReview (tick st env).2 = 1 ∧
    (tick st env).1.lastSeen = some h ∧
    occursBefore isSetLastSeen isDispatchReview (tick st env).2 = true ∧
    countWhere isDispatchReview (tick (tick st env).1 env2).2 = 0 ∧
    (tick (tick st env).1 env2).1.lastSeen = some h := by
  have hfirst : tick st env =
      ({st with lastSeen := some h},
        fetchActions env ++
          [AppAction.statusUpdate "New commit found! Updating review..." "success",
           AppAction.setLastSeen h, AppAction.dispatchReview, AppAction.updateCommitInfo,
           AppAction.setLastCheck, AppAction.sleep (effectiveInterval st.intervalStr)]) := by
    unfold tick
    rw [hh]
    simp [hd]
  have hsecond : tick ({st with lastSeen := some h} : MonitorState) env2 =
      ({st with lastSeen := some h},
        fetchActions env2 ++
          [AppAction.setLastCheck, AppAction.sleep (effectiveInterval st.intervalStr)]) := by
    unfold tick
    rw [hh2]
    simp
  rw [hfirst]
  refine ⟨?_, rfl, ?_, ?_, ?_⟩
  · rcases fetchActions_eq env with hf | hf <;>
      simp [hf, countWhere, isDispatchReview]
  · rcases fetchActions_eq env with hf | hf <;>
      simp [hf, occursBefore, firstIdxWhere, isDispatchReview, isSetLastSeen]
  · rw [hsecond]
    rcases fetchActions_eq env2 with hf | hf <;>
      simp [hf, countWhere, isDispatchReview]
  · rw [hsecond]

/-- Witness for `tick_change_dispatch`: HEAD moves from "aaa" to "bbb" on
a local-only repository, and the next tick still sees "bbb". -/
theorem tick_change_dispatch_witness :
    ((⟨false, false, Except.ok "bbb"⟩ : TickEnv).headResult = Except.ok "bbb") ∧
    (some "bbb" ≠ (⟨true, true, some "aaa", "30"⟩ : MonitorState).lastSeen) ∧
    (countWhere isDispatchReview
        (tick ⟨true, true, some "aaa", "30"⟩ ⟨false, false, Except.ok "bbb"⟩).2 = 1 ∧
      (tick ⟨true, true, some "aaa", "30"⟩ ⟨false, false, Except.ok "bbb"⟩).1.lastSeen = some "bbb" ∧
      occursBefore isSetLastSeen isDispatchReview
        (tick ⟨true, true, some "aaa", "30"⟩ ⟨false, false, Except.ok "bbb"⟩).2 = true ∧
      countWhere isDispatchReview
        (tick (tick ⟨true, true, some "aaa", "30"⟩ ⟨false, false, Except.ok "bbb"⟩).1
          ⟨false, false, Except.ok "bbb"⟩).2 = 0 ∧
      (tick (tick ⟨true, true, some "aaa", "30"⟩ ⟨false, false, Except.ok "bbb"⟩).1
          ⟨false, false, Except.ok "bbb"⟩).1.lastSeen = some "bbb") :=
  ⟨rfl, by decide,
    tick_change_dispatch ⟨true, true, some "aaa", "30"⟩ ⟨false, false, Except.ok "bbb"⟩
      ⟨false, false, Except.ok "bbb"⟩ "bbb" rfl (by decide) rfl⟩

/-- C1 counterexample: the claim as stated says `last_commit_hash` is
updated only AFTER the change event has been dispatched.  On the concrete
tick below (HEAD "aaa" → "bbb"), the first `setLastSeen` action precedes
the first `dispatchReview` action in the tick's trace, so
"dispatch occurs before the hash update" is false. -/
theorem tick_update_before_dispatch_counterexample :
    occursBefore isDispatchReview isSetLastSeen
      (tick ⟨true, true, some "aaa", "30"⟩ ⟨false, false, Except.ok "bbb"⟩).2 = false ∧
    occursBefore isSetLastSeen isDispatchReview
      (tick ⟨true, true, some "aaa", "30"⟩ ⟨false, false, Except.ok "bbb"⟩).2 = true := by
  decide

/-- C2 (amended): when reading HEAD raises during a tick, the tick posts
an error-severity status, leaves the state unchanged, and the loop
CONTINUES: the failing tick is followed by further ticks (the `except`
clause at lines 549-550 swallows the exception and the `while` loop
proceeds). -/
theorem tick_error_continues (st : MonitorState) (env : TickEnv) (rest : List TickEnv)
    (e : String) (he : env.headResult = Except.error e)
    (hr : st.running = true) (ha : st.autoCheck = true) :
    (tick st env).1 = st ∧
    AppAction.statusUpdate ("Error: " ++ e) "error" ∈ (tick st env).2 ∧
    (pollLoop st (env :: rest)).2 = (tick st env).2 :: (pollLoop st rest).2 ∧
    (pollLoop st (env :: rest)).2.length = 1 + (pollLoop st rest).2.length := by
  have hterr : tick st env =
      (st, fetchActions env ++
        [AppAction.statusUpdate ("Error: " ++ e) "error",
         AppAction.sleep (effectiveInterval st.intervalStr)]) := by
    unfold tick
    rw [he]
  have hpl : pollLoop st (env :: rest) =
      ((pollLoop (tick st env).1 rest).1, (tick st env).2 :: (pollLoop (tick st env).1 rest).2) := by
    simp [pollLoop, hr, ha]
  refine ⟨by rw [hterr], by rw [hterr]; simp, ?_, ?_⟩
  · rw [hpl, hterr]
  · rw [hpl, hterr]
    simp [Nat.add_comm]

/-- Witness for `tick_error_continues`: the repository path disappears on
the first tick. -/
theorem tick_error_continues_witness :
    ((⟨false, false, Except.error "boom"⟩ : TickEnv).headResult = Except.error "boom") ∧
    ((⟨true, true, some "aaa", "30"⟩ : MonitorState).running = true) ∧
    ((⟨true, true, some "aaa", "30"⟩ : MonitorState).autoCheck = true) ∧
    ((tick ⟨true, true, some "aaa", "30"⟩ ⟨false, false, Except.error "boom"⟩).1 =
        ⟨true, true, some "aaa", "30"⟩ ∧
      AppAction.statusUpdate ("Error: " ++ "boom") "error" ∈
        (tick ⟨true, true, some "aaa", "30"⟩ ⟨false, false, Except.error "boom"⟩).2 ∧
      (pollLoop ⟨true, true, some "aaa", "30"⟩
          [⟨false, false, Except.error "boom"⟩, ⟨false, false, Except.ok "bbb"⟩]).2 =
        (tick ⟨true, true, some "aaa", "30"⟩ ⟨false, false, Except.error "boom"⟩).2 ::
          (pollLoop ⟨true, true, some "aaa", "30"⟩ [⟨false, false, Except.ok "bbb"⟩]).2 ∧
      (pollLoop ⟨true, true, some "aaa", "30"⟩
          [⟨false, false, Except.error "boom"⟩, ⟨false, false, Except.ok "bbb"⟩]).2.length =
        1 + (pollLoop ⟨true, true, some "aaa", "30"⟩ [⟨false, false, Except.ok "bbb"⟩]).2.length) :=
  ⟨rfl, rfl, rfl,
    tick_error_continues ⟨true, true, some "aaa", "30"⟩ ⟨false, false, Except.error "boom"⟩
      [⟨false, false, Except.ok "bbb"⟩] "boom" rfl rfl rfl⟩

/-- C2 counterexample: the claim as stated says no further poll ticks
occur after a HEAD-read failure.  Concretely: after a tick whose HEAD
read raises "boom" (its trace carries the error status), a second tick
still runs — the loop produces two tick traces and the second one even
dispatches a review for the new commit. -/
theorem poll_stops_on_error_counterexample :
    AppAction.statusUpdate "Error: boom" "error" ∈
      (pollLoop ⟨true, true, some "aaa", "30"⟩
        [⟨false, false, Except.error "boom"⟩, ⟨false, false, Except.ok "bbb"⟩]).2.getD 0 [] ∧
    (pollLoop ⟨true, true, some "aaa", "30"⟩
        [⟨false, false, Except.error "boom"⟩, ⟨false, false, Except.ok "bbb"⟩]).2.length = 2 ∧
    AppAction.dispatchReview ∈
      (pollLoop ⟨true, true, some "aaa", "30"⟩
        [⟨false, false, Except.error "boom"⟩, ⟨false, false, Except.ok "bbb"⟩]).2.getD 1 [] := by
  decide

/-- C5: a failed remote fetch (`GitCommandError` from `origin.fetch()`)
only adds a printed warning to the tick's trace; the tick otherwise
behaves exactly as with a successful fetch — in particular it still reads
the local HEAD, still compares it against `last_commit_hash`, still
dispatches the change for review and still advances `last_commit_hash`.
The fetch failure is never fatal to the loop. -/
theorem tick_fetch_failure_nonfatal (st : MonitorState) (env : TickEnv) (h : String)
    (ho : env.hasOrigin = true) (hf : env.fetchFails = true)
    (hh : env.headResult = Except.ok h) (hd : some h ≠ st.lastSeen) :
    (tick st env).1 = (tick st { env with fetchFails := false }).1 ∧
    (tick st env).2 =
      AppAction.logWarning "Warning: Could not fetch from remote" ::
        (tick st { env with fetchFails := false }).2 ∧
    AppAction.dispatchReview ∈ (tick st env).2 ∧
    (tick st env).1.lastSeen = some h := by
  have hfa : fetchActions env = [AppAction.logWarning "Warning: Could not fetch from remote"] := by
    unfold fetchActions
    simp [ho, hf]
  have hfa2 : fetchActions ⟨env.hasOrigin, false, Except.ok h⟩ = [] := by
    unfold fetchActions
    simp [ho]
  unfold tick
  rw [hh]
  simp only []
  rw [if_pos hd, if_pos hd]
  simp [hfa, hfa2, hh]

/-- Witness for `tick_fetch_failure_nonfatal`: remote exists, fetch
raises, local HEAD moved from "aaa" to "bbb". -/
theorem tick_fetch_failure_nonfatal_witness :
    ((⟨true, true, Except.ok "bbb"⟩ : TickEnv).hasOrigin = true) ∧
    ((⟨true, true, Except.ok "bbb"⟩ : TickEnv).fetchFails = true) ∧
    (some "bbb" ≠ (⟨true, true, some "aaa", "30"⟩ : MonitorState).lastSeen) ∧
    ((tick ⟨true, true, some "aaa", "30"⟩ ⟨true, true, Except.ok "bbb"⟩).1 =
        (tick ⟨true, true, some "aaa", "30"⟩
          ({ (⟨true, true, Except.ok "bbb"⟩ : TickEnv) with fetchFails := false })).1 ∧
      (tick ⟨true, true, some "aaa", "30"⟩ ⟨true, true, Except.ok "bbb"⟩).2 =
        AppAction.logWarning "Warning: Could not fetch from remote" ::
          (tick ⟨true, true, some "aaa", "30"⟩
            ({ (⟨true, true, Except.ok "bbb"⟩ : TickEnv) with fetchFails := false })).2 ∧
      AppAction.dispatchReview ∈
        (tick ⟨true, true, some "aaa", "30"⟩ ⟨true, true, Except.ok "bbb"⟩).2 ∧
      (tick ⟨true, true, some "aaa", "30"⟩ ⟨true, true, Except.ok "bbb"⟩).1.lastSeen =
        some "bbb") :=
  ⟨rfl, rfl, by decide,
    tick_fetch_failure_nonfatal ⟨true, true, some "aaa", "30"⟩ ⟨true, true, Except.ok "bbb"⟩
      "bbb" rfl rfl rfl (by decide)⟩

/-- The worker delivers exactly one event per queued item. -/
theorem aiWorkerRun_length (svc : String → Except String String) (q : List String) :
    (aiWorkerRun svc q).length = q.length := by
  induction q with
  | nil => rfl
  | cons p rest ih => simp [aiWorkerRun, ih]

/-- The `k`-th delivery is the delivery for the `k`-th submitted item. -/
theorem aiWorkerRun_getD (svc : String → Except String String) :
    ∀ (q : List String) (k : Nat), k < q.length →
      (aiWorkerRun svc q).getD k (WorkerEvent.delivered "" "") =
        WorkerEvent.delivered (q.getD k "") (ai_response (q.getD k "") svc) := by
  intro q
  induction q with
  | nil => intro k hk; simp at hk
  | cons p rest ih =>
    intro k hk
    cases k with
    | zero => simp [aiWorkerRun]
    | succ k2 =>
      simp only [aiWorkerRun, List.getD_cons_succ]
      exact ih k2 (by simpa using hk)

/-- After any item, the remaining run is a fresh run on the remaining
queue: the worker survives each item and keeps processing. -/
theorem aiWorkerRun_drop (svc : String → Except String String) :
    ∀ (q : List String) (k : Nat),
      (aiWorkerRun svc q).drop k = aiWorkerRun svc (q.drop k) := by
  intro q
  induction q with
  | nil => intro k; simp [aiWorkerRun]
  | cons p rest ih =>
    intro k
    cases k with
    | zero => simp
    | succ k2 => simpa [aiWorkerRun] using ih k2

/-- Deliveries happen in submission order: the sequence of prompts whose
callbacks are invoked equals the submitted queue. -/
theorem aiWorkerRun_fifo_order (svc : String → Except String String) (q : List String) :
    (aiWorkerRun svc q).map eventPrompt = q := by
  induction q with
  | nil => rfl
  | cons p rest ih => simp [aiWorkerRun, eventPrompt, ih]

/-- C3: when the external call for the `i`-th queued payload raises with
`reason`, the worker schedules exactly one callback delivery for it — the
Failure-style text `aiFailureText reason`, not a raised exception — and
the worker remains alive: the run still has one delivery per queued item,
and the deliveries after item `i` are exactly a fresh run on the rest of
the queue. -/
theorem worker_failure_contained (svc : String → Except String String) (q : List String)
    (i : Nat) (reason : String) (hi : i < q.length)
    (hf : svc (q.getD i "") = Except.error reason) :
    (aiWorkerRun svc q).length = q.length ∧
    (aiWorkerRun svc q).getD i (WorkerEvent.delivered "" "") =
      WorkerEvent.delivered (q.getD i "") (aiFailureText reason) ∧
    (aiWorkerRun svc q).drop (i + 1) = aiWorkerRun svc (q.drop (i + 1)) := by
  refine ⟨aiWorkerRun_length svc q, ?_, aiWorkerRun_drop svc q (i + 1)⟩
  rw [aiWorkerRun_getD svc q i hi]
  unfold ai_response
  rw [hf]

/-- Witness for `worker_failure_contained`: a two-item queue whose first
call raises "connection refused"; the second item is still processed. -/
theorem worker_failure_contained_witness :
    ((0 : Nat) < (["bad", "good"] : List String).length) ∧
    ((fun p => if p = "bad" then Except.error "connection refused" else Except.ok "fine")
        ((["bad", "good"] : List String).getD 0 "") = Except.error "connection refused") ∧
    ((aiWorkerRun
          (fun p => if p = "bad" then Except.error "connection refused" else Except.ok "fine")
          ["bad", "good"]).length = (["bad", "good"] : List String).length ∧
      (aiWorkerRun
          (fun p => if p = "bad" then Except.error "connection refused" else Except.ok "fine")
          ["bad", "good"]).getD 0 (WorkerEvent.delivered "" "") =
        WorkerEvent.delivered ((["bad", "good"] : List String).getD 0 "")
          (aiFailureText "connection refused") ∧
      (aiWorkerRun
          (fun p => if p = "bad" then Except.error "connection refused" else Except.ok "fine")
          ["bad", "good"]).drop (0 + 1) =
        aiWorkerRun
          (fun p => if p = "bad" then Except.error "connection refused" else Except.ok "fine")
          ((["bad", "good"] : List String).drop (0 + 1))) :=
  ⟨by decide, by decide,
    worker_failure_contained
      (fun p => if p = "bad" then Except.error "connection refused" else Except.ok "fine")
      ["bad", "good"] 0 "connection refused" (by decide) (by decide)⟩

/-- C7: with the single worker, callback deliveries happen in submission
order.  For submissions at positions `i < j`, the delivery carrying the
`i`-th payload's result sits at position `i` of the delivery sequence and
the `j`-th at position `j`, so the earlier submission's callback is
invoked first; moreover the whole delivered-prompt sequence equals the
submission sequence. -/
theorem worker_fifo (svc : String → Except String String) (q : List String)
    (i j : Nat) (hi : i < q.length) (hj : j < q.length) (hij : i < j) :
    (aiWorkerRun svc q).map eventPrompt = q ∧
    (aiWorkerRun svc q).getD i (WorkerEvent.delivered "" "") =
      WorkerEvent.delivered (q.getD i "") (ai_response (q.getD i "") svc) ∧
    (aiWorkerRun svc q).getD j (WorkerEvent.delivered "" "") =
      WorkerEvent.delivered (q.getD j "") (ai_response (q.getD j "") svc) ∧
    i < j :=
  ⟨aiWorkerRun_fifo_order svc q, aiWorkerRun_getD svc q i hi, aiWorkerRun_getD svc q j hj, hij⟩

/-- Witness for `worker_fifo`: payloads for commits "C1" then "C2"; C1's
delivery precedes C2's even though C1's call is the slow/failing one. -/
theorem worker_fifo_witness :
    ((0 : Nat) < (["review C1", "review C2"] : List String).length) ∧
    ((1 : Nat) < (["review C1", "review C2"] : List String).length) ∧
    ((0 : Nat) < 1) ∧
    ((aiWorkerRun (fun _ => Except.ok "lgtm") ["review C1", "review C2"]).map eventPrompt =
        ["review C1", "review C2"] ∧
      (aiWorkerRun (fun _ => Except.ok "lgtm") ["review C1", "review C2"]).getD 0
          (WorkerEvent.delivered "" "") =
        WorkerEvent.delivered ((["review C1", "review C2"] : List String).getD 0 "")
          (ai_response ((["review C1", "review C2"] : List String).getD 0 "")
            (fun _ => Except.ok "lgtm")) ∧
      (aiWorkerRun (fun _ => Except.ok "lgtm") ["review C1", "review C2"]).getD 1
          (WorkerEvent.delivered "" "") =
        WorkerEvent.delivered ((["review C1", "review C2"] : List String).getD 1 "")
          (ai_response ((["review C1", "review C2"] : List String).getD 1 "")
            (fun _ => Except.ok "lgtm")) ∧
      (0 : Nat) < 1) :=
  ⟨by decide, by decide, by decide,
    worker_fifo (fun _ => Except.ok "lgtm") ["review C1", "review C2"] 0 1
      (by decide) (by decide) (by decide)⟩


/-! ## Root-commit extraction (C6) -/

/-- `splitNL` always yields at least one line. -/
theorem splitNL_ne_nil (l : List Char) : splitNL l ≠ [] := by
  induction l with
  | nil => simp [splitNL]
  | cons c rest ih =>
    simp only [splitNL]
    by_cases hc : c = '\n'
    · simp [hc]
    · simp only [if_neg hc]
      cases hs : splitNL rest with
      | nil => exact absurd hs ih
      | cons s ss => simp

/-- Splitting after a leading newline drops into a fresh empty line. -/
theorem splitNL_cons_newline (rest : List Char) :
    splitNL ('\n' :: rest) = [] :: splitNL rest := by
  simp [splitNL]

/-- Splitting after a leading non-newline character prefixes it onto the
first line. -/
theorem splitNL_cons_other (a : Char) (rest : List Char) (ha : ¬ a = '\n') :
    splitNL (a :: rest) =
      match splitNL rest with
      | [] => [[a]]
      | s :: ss => (a :: s) :: ss := by
  simp [splitNL, ha]

theorem replaceNLplus_cons_newline (rest : List Char) :
    replaceNLplus ('\n' :: rest) = '\n' :: '+' :: replaceNLplus rest := by
  simp [replaceNLplus]

theorem replaceNLplus_cons_other (a : Char) (rest : List Char) (ha : ¬ a = '\n') :
    replaceNLplus (a :: rest) = a :: replaceNLplus rest := by
  simp [replaceNLplus, ha]

/-- Inserting '+' after every newline leaves the first line unchanged and
prefixes every later line with '+'. -/
theorem splitNL_replaceNLplus (c : List Char) :
    splitNL (replaceNLplus c) =
      match splitNL c with
      | [] => []
      | t :: ts => t :: ts.map (fun l => '+' :: l) := by
  induction c with
  | nil => rfl
  | cons a rest ih =>
    cases ht : splitNL rest with
    | nil => exact absurd ht (splitNL_ne_nil rest)
    | cons t ts =>
      rw [ht] at ih
      by_cases ha : a = '\n'
      · subst ha
        rw [replaceNLplus_cons_newline, splitNL_cons_newline,
          splitNL_cons_other '+' (replaceNLplus rest) (by decide), ih,
          splitNL_cons_newline, ht]
        rfl
      · rw [replaceNLplus_cons_other a rest ha,
          splitNL_cons_other a (replaceNLplus rest) ha, ih,
          splitNL_cons_other a rest ha, ht]

/-- Every line of the synthesized body for one file carries the '+'
addition marker: the lines of `addedFileBody c` are exactly the lines of
`c`, each prefixed with '+'. -/
theorem splitNL_addedFileBody (c : List Char) :
    splitNL (addedFileBody c) = (splitNL c).map (fun l => '+' :: l) := by
  unfold addedFileBody
  cases ht : splitNL c with
  | nil => exact absurd ht (splitNL_ne_nil c)
  | cons t ts =>
    have hR := splitNL_replaceNLplus c
    rw [ht] at hR
    rw [splitNL_cons_other '+' (replaceNLplus c) (by decide), hR]
    rfl

/-- Accumulating appended segments by `foldl` concatenates the per-item
segments in order. -/
theorem foldl_append_segments {α β : Type} (f : α → List β) :
    ∀ (l : List α) (init : List β),
      l.foldl (fun acc x => acc ++ f x) init = init ++ (l.map f).flatten := by
  intro l
  induction l with
  | nil => intro init; simp
  | cons x xs ih => intro init; simp [List.foldl_cons, ih]

/-- Flattening singleton segments is just mapping. -/
theorem flatten_map_singleton {α β : Type} (f : α → β) (l : List α) :
    (l.map (fun x => [f x])).flatten = l.map f := by
  induction l with
  | nil => rfl
  | cons x xs ih => simp [ih]

/-- C6: for a root commit (exactly one commit reachable from HEAD),
extraction marks the payload as an initial commit, lists every tracked
file path in tree-traversal order as `changedFiles`, and synthesizes a
pseudo-diff that is the concatenation, per tracked file, of its header
and a wholly-added body in which every line of the file is prefixed with
the '+' addition marker. -/
theorem root_commit_extraction (r : RepoModel) (hc : r.commitCount = 1) :
    (extractPayload r).isInitialCommit = true ∧
    (extractPayload r).changedFiles = r.tree.map Blob.path ∧
    (extractPayload r).diffChars =
      (r.tree.map (fun b => fileHeader b.path ++ addedFileBody b.content)).flatten ∧
    r.tree.all (fun b =>
      splitNL (addedFileBody b.content) == (splitNL b.content).map (fun l => '+' :: l)) = true := by
  have h1 : ¬ (r.commitCount > 1) := by omega
  refine ⟨?_, ?_, ?_, ?_⟩
  · simp [extractPayload, h1]
  · simp [extractPayload, extractFiles, h1, foldl_append_segments, flatten_map_singleton]
  · simp [extractPayload, extractDiffChars, h1, foldl_append_segments]
  · rw [List.all_eq_true]
    intro b hb
    simp [splitNL_addedFileBody]

/-- A single-commit repository touching `a.txt` (ending in a newline) and
`b.txt` (no trailing newline). -/
def sampleRootRepo : RepoModel :=
  { commit :=
      { hexsha := "c0ffee", authorName := "Ann", dateStr := "2024-01-01 00:00",
        message := "init" },
    commitCount := 1,
    tree :=
      [{ path := "a.txt", content := ("alpha\n").toList },
       { path := "b.txt", content := ("beta").toList }],
    diffPairs := [] }

/-- Witness for `root_commit_extraction` on `sampleRootRepo`; the changed
files evaluate concretely to `["a.txt", "b.txt"]`. -/
theorem root_commit_extraction_witness :
    sampleRootRepo.commitCount = 1 ∧
    ((extractPayload sampleRootRepo).isInitialCommit = true ∧
      (extractPayload sampleRootRepo).changedFiles = sampleRootRepo.tree.map Blob.path ∧
      (extractPayload sampleRootRepo).diffChars =
        (sampleRootRepo.tree.map
          (fun b => fileHeader b.path ++ addedFileBody b.content)).flatten ∧
      sampleRootRepo.tree.all (fun b =>
        splitNL (addedFileBody b.content) ==
          (splitNL b.content).map (fun l => '+' :: l)) = true) ∧
    (extractPayload sampleRootRepo).changedFiles = ["a.txt", "b.txt"] :=
  ⟨rfl, root_commit_extraction sampleRootRepo rfl, by decide⟩

/-! ## Prompt structure (C9) -/

/-- C9 (amended): the prompt built before submission is NOT bare
"COMMIT HASH: ..." — it always carries the extra leading line
"Please review the following Git commit:" and a blank line before the
specified template (line 598 of `main.py`). -/
theorem prompt_has_preamble (c : CommitData) (files : List String) (diff : String) :
    textPrompt c files diff =
      "Please review the following Git commit:\n\n" ++ promptSpecFormat c files diff := by
  unfold textPrompt promptSpecFormat
  simp only [String.append_assoc]

/-- Sample commit metadata for the prompt comparison. -/
def sampleCommit : CommitData :=
  { hexsha := "abc123", authorName := "Ann", dateStr := "2024-01-01 00:00", message := "fix" }

/-- C9 counterexample: at concrete commit data the prompt the code builds
differs from the exact template the specification gives ("and nothing
more"), because of the leading "Please review the following Git commit:"
line. -/
theorem prompt_exact_template_counterexample :
    textPrompt sampleCommit ["a.txt"] "DIFFTEXT" ≠
      promptSpecFormat sampleCommit ["a.txt"] "DIFFTEXT" := by
  decide

/-! ## Repository selection (C8) -/

/-- A tick on an unchanged HEAD dispatches no review. -/
theorem tick_unchanged_no_dispatch (st : MonitorState) (env : TickEnv) (h : String)
    (hh : env.headResult = Except.ok h) (hls : st.lastSeen = some h) :
    countWhere isDispatchReview (tick st env).2 = 0 := by
  have hq : tick st env =
      (st, fetchActions env ++
        [AppAction.setLastCheck, AppAction.sleep (effectiveInterval st.intervalStr)]) := by
    unfold tick
    rw [hh]
    simp [hls]
  rw [hq]
  rcases fetchActions_eq env with hf | hf <;>
    simp [hf, countWhere, isDispatchReview]

/-- C8 (amended): selecting a valid repository path resets
`last_commit_hash` to the new repository's current HEAD — so the
detector's next tick on that HEAD dispatches nothing — but the switch
itself DOES submit exactly one review to the pipeline: `initialize_repo`
unconditionally runs an initial `update_commit_review()`, which enqueues
a review of the new repository's HEAD commit. -/
theorem select_repository_resets_and_submits (st : MonitorState) (r : RepoModel)
    (h : String) (env2 : TickEnv) (hh2 : env2.headResult = Except.ok h) :
    (select_repository st true none (Except.ok h) r).1.lastSeen = some h ∧
    countWhere isSubmitReview (select_repository st true none (Except.ok h) r).2 = 1 ∧
    AppAction.submitReview (promptOf r) ∈
      (select_repository st true none (Except.ok h) r).2 ∧
    countWhere isDispatchReview
      (tick (select_repository st true none (Except.ok h) r).1 env2).2 = 0 := by
  have hsel : select_repository st true none (Except.ok h) r =
      ((initialize_repo st (Except.ok h) r).1,
        AppAction.statusUpdate "Selecting repository..." "info" ::
          (initialize_repo st (Except.ok h) r).2) := by
    rfl
  by_cases hm : (st.autoCheck && !st.running) = true
  · have hinit : initialize_repo st (Except.ok h) r =
        ({ st with lastSeen := some h, running := true },
          [AppAction.statusUpdate "Repository initialized" "success",
           AppAction.updateCommitInfo,
           AppAction.statusUpdate "Monitoring for changes" "info"] ++ reviewSubmitActions r) := by
      simp only [initialize_repo]
      rw [if_pos hm]
    rw [hsel, hinit]
    refine ⟨rfl, ?_, ?_, ?_⟩
    · simp [reviewSubmitActions, countWhere, isSubmitReview]
    · simp [reviewSubmitActions]
    · exact tick_unchanged_no_dispatch _ env2 h hh2 rfl
  · have hinit : initialize_repo st (Except.ok h) r =
        ({ st with lastSeen := some h },
          [AppAction.statusUpdate "Repository initialized" "success",
           AppAction.updateCommitInfo] ++ reviewSubmitActions r) := by
      simp only [initialize_repo]
      rw [if_neg hm]
    rw [hsel, hinit]
    refine ⟨rfl, ?_, ?_, ?_⟩
    · simp [reviewSubmitActions, countWhere, isSubmitReview]
    · simp [reviewSubmitActions]
    · exact tick_unchanged_no_dispatch _ env2 h hh2 rfl

/-- Witness for `select_repository_resets_and_submits`: selecting a valid
repository whose HEAD is "c0ffee", then a quiet tick on it. -/
theorem select_repository_resets_and_submits_witness :
    ((⟨false, false, Except.ok "c0ffee"⟩ : TickEnv).headResult = Except.ok "c0ffee") ∧
    ((select_repository ⟨false, true, none, "30"⟩ true none (Except.ok "c0ffee")
          sampleRootRepo).1.lastSeen = some "c0ffee" ∧
      countWhere isSubmitReview
        (select_repository ⟨false, true, none, "30"⟩ true none (Except.ok "c0ffee")
          sampleRootRepo).2 = 1 ∧
      AppAction.submitReview (promptOf sampleRootRepo) ∈
        (select_repository ⟨false, true, none, "30"⟩ true none (Except.ok "c0ffee")
          sampleRootRepo).2 ∧
      countWhere isDispatchReview
        (tick (select_repository ⟨false, true, none, "30"⟩ true none (Except.ok "c0ffee")
            sampleRootRepo).1
          ⟨false, false, Except.ok "c0ffee"⟩).2 = 0) :=
  ⟨rfl,
    select_repository_resets_and_submits ⟨false, true, none, "30"⟩ sampleRootRepo "c0ffee"
      ⟨false, false, Except.ok "c0ffee"⟩ rfl⟩

/-- C8 counterexample: the claim as stated says the switch submits no
review payload to the pipeline.  Concretely, selecting a valid repository
submits one (the count of `ai_queue.put` actions is 1, not 0). -/
theorem select_no_review_counterexample :
    ¬ (countWhere isSubmitReview
        (select_repository ⟨false, true, none, "30"⟩ true none (Except.ok "c0ffee")
          sampleRootRepo).2 = 0) := by
  decide
